import Mathlib

/-!
Verification of the display-order bookkeeping engine of the portfolio server
(`src/unnamed/part_000`).  Persisted state.json order entries are modelled as a
map from collection IDs to optional integer lists; gallery data is modelled as
the two collection arrays (`gallerySections`, `exhibitions`) with their image
arrays.  Each server function or endpoint relevant to order bookkeeping is
translated into a pure Lean function over that state.
-/

namespace ArtisticPortal

/-- An image record as stored in galleryData.json
(`updateGalleryDataSingle` pushes records with fields src, thumbnail, caption). -/
structure ImageRec where
  src : String
  thumbnail : String
  caption : String
  deriving DecidableEq, Repr

/-- A collection (gallery section or exhibition): an id plus an optional images
array (the JS code guards with `section.images` before using it). -/
structure Collection where
  id : String
  images : Option (List ImageRec)
  deriving DecidableEq, Repr

/-- The parsed galleryData.json document: the two collection arrays. -/
structure GalleryData where
  gallerySections : List Collection
  exhibitions : List Collection
  deriving DecidableEq, Repr

/-- The parsed per-collection order entries of state.json: collection id to
optional order array (a JS object lookup yields undefined for absent keys). -/
def OrdersMap := String → Option (List Int)

/-- `galleryOrders[id] = v` on a parsed state document. -/
def setOrder (m : OrdersMap) (id : String) (v : List Int) : OrdersMap :=
  fun k => if k = id then some v else m k

/-- `isGallerySection` (part_000 line 705): true iff some gallery section has
the given id. -/
def isGallerySection (g : GalleryData) (id : String) : Bool :=
  g.gallerySections.any (fun sec => sec.id == id)

/-- The startsWith test of JS strings as used by the server: a direct
character prefix check. -/
def strStartsWith (s p : String) : Bool :=
  p.data.isPrefixOf s.data

/-- `findMatchingExhibitionIds` (part_000 lines 803-826): gallery sections map
to themselves; an exhibition id starting with "underwater-" maps to all
exhibition ids starting with "underwater-"; other ids map to themselves. -/
def findMatchingExhibitionIds (g : GalleryData) (exhibitionId : String) : List String :=
  if isGallerySection g exhibitionId then [exhibitionId]
  else
    let matchingIds :=
      if strStartsWith exhibitionId "underwater-" then
        (g.exhibitions.filter (fun e => strStartsWith e.id "underwater-")).map (fun e => e.id)
      else [exhibitionId]
    if matchingIds.length > 0 then matchingIds else [exhibitionId]

/-- `getImageCount` (part_000 lines 829-847): length of the images array of the
named collection in the chosen array, 0 when the collection or its images
array is missing. -/
def getImageCount (g : GalleryData) (exhibitionId : String) (isGallery : Bool) : Nat :=
  let array := if isGallery then g.gallerySections else g.exhibitions
  match array.find? (fun sec => sec.id == exhibitionId) with
  | none => 0
  | some sec =>
    match sec.images with
    | some imgs => imgs.length
    | none => 0

/-- The order synthesized by `updateStateWithNewImage` (part_000 lines 888-894)
when no non-empty order was persisted: the loop pushes 1..currentImageCount and
then 0. -/
def synthesizedOrder (currentImageCount : Nat) : List Int :=
  ((List.range currentImageCount).map (fun (i : Nat) => (i : Int) + 1)) ++ [0]

/-- The per-entry order transformation of `updateStateWithNewImage`
(part_000 lines 876-898): a persisted non-empty order has every value
incremented by 1 and 0 pushed at the end; otherwise the order is synthesized
from the prior image count. -/
def newImageOrder (order : Option (List Int)) (currentImageCount : Nat) : List Int :=
  match order with
  | some o =>
    if o.length > 0 then o.map (fun idx => idx + 1) ++ [0]
    else synthesizedOrder currentImageCount
  | none => synthesizedOrder currentImageCount

/-- `updateStateWithNewImage` (part_000 lines 851-908) acting on the parsed
state: every id in the resolved alias set gets its own entry transformed by
`newImageOrder` and written back. -/
def updateStateWithNewImage (g : GalleryData) (m : OrdersMap) (exhibitionId : String)
    (currentImageCount : Nat) : OrdersMap :=
  (findMatchingExhibitionIds g exhibitionId).foldl
    (fun acc id => setOrder acc id (newImageOrder (acc id) currentImageCount)) m

/-- The per-entry order transformation of `updateStateAfterDelete`
(part_000 lines 1126-1155): remove the first occurrence of the deleted index
(indexOf + splice, a no-op when absent) and decrement every value strictly
greater than the deleted index. -/
def deleteAdjust (order : List Int) (deletedIndex : Int) : List Int :=
  (order.erase deletedIndex).map (fun idx => if idx > deletedIndex then idx - 1 else idx)

/-- `updateStateAfterDelete` (part_000 lines 1096-1191) acting on the parsed
state: every id in the resolved alias set with a persisted non-empty order has
it replaced by `deleteAdjust`; absent or empty entries are left alone. -/
def updateStateAfterDelete (g : GalleryData) (m : OrdersMap) (exhibitionId : String)
    (deletedIndex : Int) : OrdersMap :=
  (findMatchingExhibitionIds g exhibitionId).foldl
    (fun acc id =>
      match acc id with
      | some order =>
        if order.length > 0 then setOrder acc id (deleteAdjust order deletedIndex) else acc
      | none => acc)
    m

/-- The meta-order transformation in DELETE /api/delete-gallery-section
(part_000 lines 2164-2190): remove the first occurrence of the deleted section
index, decrement values strictly greater than it, then filter out any value
outside the bounds of the shrunken gallerySections array. -/
def metaDeleteAdjust (order : List Int) (sectionIndex : Int)
    (newGallerySectionsLength : Nat) : List Int :=
  ((order.erase sectionIndex).map (fun idx => if idx > sectionIndex then idx - 1 else idx)).filter
    (fun idx => decide (0 ≤ idx ∧ idx < (newGallerySectionsLength : Int)))

/-- The maxValidIndex computation of POST /api/gallery-order
(part_000 lines 1850-1863): images length minus 1 for the named collection in
the relevant array, and -1 when the collection or its images array is
missing. -/
def maxValidIndex (g : GalleryData) (exhibitionId : String) : Int :=
  if isGallerySection g exhibitionId then
    match g.gallerySections.find? (fun sec => sec.id == exhibitionId) with
    | some sec =>
      match sec.images with
      | some imgs => (imgs.length : Int) - 1
      | none => -1
    | none => -1
  else
    match g.exhibitions.find? (fun e => e.id == exhibitionId) with
    | some e =>
      match e.images with
      | some imgs => (imgs.length : Int) - 1
      | none => -1
    | none => -1

/-- The JSON body sent by POST /api/gallery-order on its non-error paths. -/
structure OrderSaveResponse where
  success : Bool
  message : String
  deriving DecidableEq, Repr

/-- POST /api/gallery-order (part_000 lines 1795-1925) acting on the parsed
state: the two reserved ids are written verbatim; any other id is validated
against `maxValidIndex` (stale submissions leave the state untouched, valid
ones are written to every resolved alias id); the response is the same
success body on every one of these paths (line 1920). -/
def galleryOrderPost (g : GalleryData) (m : OrdersMap) (exhibitionId : String)
    (order : List Int) : OrdersMap × OrderSaveResponse :=
  let m2 :=
    if exhibitionId = "gallery-sections" then setOrder m "gallery-sections" order
    else if exhibitionId = "exhibitions" then setOrder m "exhibitions" order
    else
      let matchingIds := findMatchingExhibitionIds g exhibitionId
      let invalidIndices :=
        order.filter (fun idx => decide (idx < 0 ∨ idx > maxValidIndex g exhibitionId))
      if invalidIndices.length > 0 then m
      else matchingIds.foldl (fun acc id => setOrder acc id order) m
  (m2, { success := true, message := "Order saved successfully" })

/-- POST /api/create-gallery-section (part_000 lines 1945-2100) acting on the
parsed state: the new section (created with an empty images array, line 2000)
is unshifted onto gallerySections (line 2004) and galleryData is written back;
the endpoint never reads or writes state.json, so the orders map is returned
unchanged. -/
def createGallerySection (g : GalleryData) (m : OrdersMap) (newSection : Collection) :
    GalleryData × OrdersMap :=
  ({ g with gallerySections := newSection :: g.gallerySections }, m)

/-- DELETE /api/delete-gallery-section (part_000 lines 2103-2223) acting on the
parsed state: none when the section is not found (404); otherwise the section
is spliced out of gallerySections and, when a gallery-sections entry exists in
state.json, it is replaced by `metaDeleteAdjust` against the shrunken array
length. -/
def deleteGallerySection (g : GalleryData) (m : OrdersMap) (sectionId : String) :
    Option (GalleryData × OrdersMap) :=
  match g.gallerySections.findIdx? (fun sec => sec.id == sectionId) with
  | none => none
  | some sectionIndex =>
    let newSections := g.gallerySections.eraseIdx sectionIndex
    let g2 : GalleryData := { g with gallerySections := newSections }
    let m2 :=
      match m "gallery-sections" with
      | some order =>
        setOrder m "gallery-sections"
          (metaDeleteAdjust order (sectionIndex : Int) newSections.length)
      | none => m
    some (g2, m2)

/-- The per-entry effect of `updateStateAfterDelete` on one state.json entry:
a non-empty order is replaced by `deleteAdjust`, other entries are kept. -/
def afterDeleteEntry (deletedIndex : Int) (o : Option (List Int)) : Option (List Int) :=
  match o with
  | some order => if order.length > 0 then some (deleteAdjust order deletedIndex) else some order
  | none => none

/-- A mutation against one collection as triggered by the upload endpoint
(part_000 lines 1242-1360: unshift into storage, then the append adjustment
with the prior image count) or the delete endpoint (lines 1651-1736: remove
one storage position, then the delete adjustment). -/
inductive GalleryOp where
  | upload : GalleryOp
  | deleteAt : Int → GalleryOp
  deriving DecidableEq, Repr

/-- One collection as seen by the order engine: its storage array length and
its persisted order entry. -/
structure CollectionState where
  storageLen : Nat
  order : List Int
  deriving DecidableEq, Repr

/-- One mutation step: upload grows storage by one and applies the append
adjustment with the prior count; delete shrinks storage by one and applies the
delete adjustment to a non-empty order (the guard of updateStateAfterDelete). -/
def applyOp (s : CollectionState) : GalleryOp → CollectionState
  | GalleryOp.upload =>
    CollectionState.mk (s.storageLen + 1) (newImageOrder (some s.order) s.storageLen)
  | GalleryOp.deleteAt p =>
    CollectionState.mk (s.storageLen - 1)
      (if s.order.length > 0 then deleteAdjust s.order p else s.order)

/-- A sequence of mutations applied in order. -/
def applyOps (s : CollectionState) (ops : List GalleryOp) : CollectionState :=
  ops.foldl applyOp s

/-- A mutation sequence is valid when every delete targets a storage position
that exists at that time. -/
def ValidOps : Nat → List GalleryOp → Prop
  | _, [] => True
  | n, GalleryOp.upload :: rest => ValidOps (n + 1) rest
  | n, GalleryOp.deleteAt p :: rest => (0 ≤ p ∧ p < (n : Int)) ∧ ValidOps (n - 1) rest

/-- The permutation validity invariant: no duplicates and every value inside
the current storage bounds. -/
def OrderInv (n : Nat) (o : List Int) : Prop :=
  o.Nodup ∧ ∀ v ∈ o, 0 ≤ v ∧ v < (n : Int)

/-- A concrete gallery with the two linked underwater exhibitions, two stored
images each. -/
def underwaterData : GalleryData :=
  GalleryData.mk []
    [Collection.mk "underwater-carboneria"
      (some [ImageRec.mk "x" "tx" "cx", ImageRec.mk "y" "ty" "cy"]),
     Collection.mk "underwater-babel"
      (some [ImageRec.mk "x" "tx" "cx", ImageRec.mk "y" "ty" "cy"])]

/-- A persisted state where only underwater-carboneria has an order entry. -/
def aliasCexOrders : OrdersMap :=
  fun k => if k = "underwater-carboneria" then some [1, 0] else none

/-- A concrete gallery with two existing sections for the create scenario. -/
def twoSectionData : GalleryData :=
  GalleryData.mk [Collection.mk "sec-a" (some []), Collection.mk "sec-b" (some [])] []

/-- A persisted state holding the gallery-sections meta order [1, 0]. -/
def twoSectionOrders : OrdersMap :=
  fun k => if k = "gallery-sections" then some [1, 0] else none

/-- A concrete gallery with one exhibition holding two images, for the stale
reorder scenario. -/
def staleReorderData : GalleryData :=
  GalleryData.mk []
    [Collection.mk "marine-life" (some [ImageRec.mk "i1" "t1" "c1", ImageRec.mk "i2" "t2" "c2"])]

/-- A persisted state where marine-life has order [0, 1]. -/
def staleReorderOrders : OrdersMap :=
  fun k => if k = "marine-life" then some [0, 1] else none

/-- Folding a per-id update over a list of ids leaves every key outside the
list untouched, provided each step only modifies the processed id. -/
theorem foldl_lookup_not_mem (step : OrdersMap → String → OrdersMap)
    (hother : ∀ acc id k, k ≠ id → step acc id k = acc k) :
    ∀ (ids : List String) (m : OrdersMap) (k : String), k ∉ ids →
      ids.foldl step m k = m k := by
  intro ids
  induction ids with
  | nil => intro m k _; rfl
  | cons a rest ih =>
    intro m k hk
    simp only [List.mem_cons, not_or] at hk
    simp only [List.foldl_cons]
    rw [ih (step m a) k hk.2, hother m a k hk.1]

/-- Folding a per-id update over a duplicate-free list of ids sends each member
key to the pointwise transformation of its previous entry. -/
theorem foldl_lookup_mem (step : OrdersMap → String → OrdersMap)
    (f : Option (List Int) → Option (List Int))
    (hother : ∀ acc id k, k ≠ id → step acc id k = acc k)
    (hself : ∀ acc id, step acc id id = f (acc id)) :
    ∀ (ids : List String) (m : OrdersMap) (k : String), ids.Nodup → k ∈ ids →
      ids.foldl step m k = f (m k) := by
  intro ids
  induction ids with
  | nil => intro m k _ hk; simp at hk
  | cons a rest ih =>
    intro m k hnd hk
    simp only [List.foldl_cons]
    rcases List.mem_cons.mp hk with rfl | hk2
    · rw [foldl_lookup_not_mem step hother rest (step m k) k (List.nodup_cons.mp hnd).1,
        hself]
    · have h1 : k ≠ a := by
        rintro rfl
        exact (List.nodup_cons.mp hnd).1 hk2
      rw [ih (step m a) k (List.nodup_cons.mp hnd).2 hk2, hother m a k h1]

/-- Lookup of an alias-set member after `updateStateWithNewImage`. -/
theorem updateStateWithNewImage_lookup_mem (g : GalleryData) (m : OrdersMap)
    (exhibitionId : String) (count : Nat) (k : String)
    (hnd : (findMatchingExhibitionIds g exhibitionId).Nodup)
    (hk : k ∈ findMatchingExhibitionIds g exhibitionId) :
    updateStateWithNewImage g m exhibitionId count k = some (newImageOrder (m k) count) := by
  unfold updateStateWithNewImage
  exact foldl_lookup_mem _ (fun o => some (newImageOrder o count))
    (fun acc id k2 hne => by simp [setOrder, hne])
    (fun acc id => by simp [setOrder])
    _ m k hnd hk

/-- Lookup of a key outside the alias set after `updateStateWithNewImage`. -/
theorem updateStateWithNewImage_lookup_not_mem (g : GalleryData) (m : OrdersMap)
    (exhibitionId : String) (count : Nat) (k : String)
    (hk : k ∉ findMatchingExhibitionIds g exhibitionId) :
    updateStateWithNewImage g m exhibitionId count k = m k := by
  unfold updateStateWithNewImage
  exact foldl_lookup_not_mem _
    (fun acc id k2 hne => by simp [setOrder, hne]) _ m k hk

/-- Lookup of an alias-set member after `updateStateAfterDelete`. -/
theorem updateStateAfterDelete_lookup_mem (g : GalleryData) (m : OrdersMap)
    (exhibitionId : String) (deletedIndex : Int) (k : String)
    (hnd : (findMatchingExhibitionIds g exhibitionId).Nodup)
    (hk : k ∈ findMatchingExhibitionIds g exhibitionId) :
    updateStateAfterDelete g m exhibitionId deletedIndex k
      = afterDeleteEntry deletedIndex (m k) := by
  unfold updateStateAfterDelete
  refine foldl_lookup_mem _ (afterDeleteEntry deletedIndex) ?_ ?_ _ m k hnd hk
  · intro acc id k2 hne
    cases hacc : acc id with
    | none => simp [hacc]
    | some order =>
      by_cases hlen : order.length > 0
      · simp [hacc, hlen, setOrder, hne]
      · simp [hacc, hlen]
  · intro acc id
    cases hacc : acc id with
    | none => simp [hacc, afterDeleteEntry]
    | some order =>
      by_cases hlen : order.length > 0
      · simp [hacc, hlen, setOrder, afterDeleteEntry]
      · simp [hacc, hlen, afterDeleteEntry]

/-- Lookup of a key outside the alias set after `updateStateAfterDelete`. -/
theorem updateStateAfterDelete_lookup_not_mem (g : GalleryData) (m : OrdersMap)
    (exhibitionId : String) (deletedIndex : Int) (k : String)
    (hk : k ∉ findMatchingExhibitionIds g exhibitionId) :
    updateStateAfterDelete g m exhibitionId deletedIndex k = m k := by
  unfold updateStateAfterDelete
  refine foldl_lookup_not_mem _ ?_ _ m k hk
  intro acc id k2 hne
  cases hacc : acc id with
  | none => simp [hacc]
  | some order =>
    by_cases hlen : order.length > 0
    · simp [hacc, hlen, setOrder, hne]
    · simp [hacc, hlen]

/-- C1: on image upload, for every collection in the resolved alias set, an
existing non-empty persisted order is transformed by incrementing every value
by 1 and appending 0 at the end; an absent or empty order is synthesized as
[1, 2, ..., priorStorageLength, 0]. -/
theorem upload_append_adjustment (g : GalleryData) (m : OrdersMap)
    (exhibitionId : String) (count : Nat) (k : String)
    (hnd : (findMatchingExhibitionIds g exhibitionId).Nodup)
    (hk : k ∈ findMatchingExhibitionIds g exhibitionId) :
    (∀ o : List Int, m k = some o → o ≠ [] →
        updateStateWithNewImage g m exhibitionId count k
          = some (o.map (fun v => v + 1) ++ [0]))
    ∧ ((m k = none ∨ m k = some []) →
        updateStateWithNewImage g m exhibitionId count k
          = some (((List.range count).map (fun (i : Nat) => (i : Int) + 1)) ++ [0])) := by
  rw [updateStateWithNewImage_lookup_mem g m exhibitionId count k hnd hk]
  constructor
  · intro o ho hne
    rw [ho]
    simp [newImageOrder, List.length_pos.mpr hne]
  · rintro (ho | ho) <;> rw [ho] <;> simp [newImageOrder, synthesizedOrder]

/-- Concrete run of the C1 theorem: one exhibition, persisted order [1, 0],
upload with prior count 2 yields [2, 1, 0]. -/
theorem upload_append_adjustment_witness :
    updateStateWithNewImage
        (GalleryData.mk [] [Collection.mk "solo" (some [])])
        (fun k => if k = "solo" then some [1, 0] else none)
        "solo" 2 "solo"
      = some [2, 1, 0] :=
  (upload_append_adjustment
      (GalleryData.mk [] [Collection.mk "solo" (some [])])
      (fun k => if k = "solo" then some [1, 0] else none)
      "solo" 2 "solo" (by decide) (by decide)).1
    [1, 0] (by decide) (by decide)

/-- C2: the delete adjustment removes the first occurrence of the deleted
position (a no-op when absent) and then decrements every remaining value
strictly greater than it, leaving values less than or equal to it unchanged;
in particular [3, 1, 0, 2] with deleted position 1 becomes [2, 0, 1]. -/
theorem deleteAdjust_spec (o : List Int) (p : Int) :
    (p ∉ o → deleteAdjust o p = o.map (fun v => if v > p then v - 1 else v))
    ∧ (∀ l r : List Int, o = l ++ p :: r → p ∉ l →
        deleteAdjust o p = (l ++ r).map (fun v => if v > p then v - 1 else v))
    ∧ deleteAdjust [3, 1, 0, 2] 1 = [2, 0, 1] := by
  refine ⟨?_, ?_, by decide⟩
  · intro hp
    unfold deleteAdjust
    rw [List.erase_of_not_mem hp]
  · intro l r ho hl
    subst ho
    unfold deleteAdjust
    rw [List.erase_append_right (p :: r) hl, List.erase_cons_head]

/-- Concrete run of the C2 theorem: removing first occurrence of 1 from
[3, 1, 0, 2] and decrementing larger values. -/
theorem deleteAdjust_spec_witness :
    deleteAdjust [3, 1, 0, 2] 1 = ([3] ++ [0, 2]).map (fun v => if v > 1 then v - 1 else v) :=
  (deleteAdjust_spec [3, 1, 0, 2] 1).2.1 [3] [0, 2] (by decide) (by decide)

/-- C3 counterexample: the item-level delete adjustment does not drop values
outside the new storage bounds.  An exhibition with two images and anomalous
persisted order [5, 0] has storage position 0 deleted (new storage length 1):
the resulting entry is [4], and 4 lies outside [0, 1). -/
theorem item_delete_no_clamp_cex :
    updateStateAfterDelete
        (GalleryData.mk []
          [Collection.mk "exh"
            (some [ImageRec.mk "a" "ta" "ca", ImageRec.mk "b" "tb" "cb"])])
        (fun k => if k = "exh" then some [5, 0] else none)
        "exh" 0 "exh"
      = some [4]
    ∧ ¬(0 ≤ (4 : Int) ∧ (4 : Int) < 1) := by
  constructor
  · rfl
  · decide

/-- C3 amended: the defensive clamp exists only in the collection-level
(gallery-sections meta) delete adjustment, where every produced value lies in
[0, newGallerySectionsLength); the item-level delete adjustment performs only
removal and decrement. -/
theorem metaDeleteAdjust_clamped (order : List Int) (sectionIndex : Int) (newLen : Nat) :
    ∀ v ∈ metaDeleteAdjust order sectionIndex newLen, 0 ≤ v ∧ v < (newLen : Int) := by
  intro v hv
  unfold metaDeleteAdjust at hv
  exact of_decide_eq_true (List.mem_filter.mp hv).2

/-- Concrete run of the C3 amended theorem at order [3, 1, 0, 2], deleted
section index 1, new length 3, produced value 2. -/
theorem metaDeleteAdjust_clamped_witness :
    0 ≤ (2 : Int) ∧ (2 : Int) < ((3 : Nat) : Int) :=
  metaDeleteAdjust_clamped [3, 1, 0, 2] 1 3 2 (by decide)

/-- C4 counterexample: for the empty persisted order with one prior image, the
append adjustment synthesizes [1, 0] and the immediate delete of position 0
yields [0], not the original empty order. -/
theorem append_delete_roundtrip_cex :
    deleteAdjust (newImageOrder (some ([] : List Int)) 1) 0 = [0]
    ∧ ([0] : List Int) ≠ ([] : List Int) := by decide

/-- C4 amended: for every non-empty order of non-negative positions, the
append adjustment followed by the delete adjustment at position 0 restores the
order exactly; for an absent order with prior storage length n, the round trip
instead yields the explicit storage order [0, 1, ..., n-1]. -/
theorem append_delete_roundtrip :
    (∀ (o : List Int) (n : Nat), o ≠ [] → (∀ v ∈ o, 0 ≤ v) →
        deleteAdjust (newImageOrder (some o) n) 0 = o)
    ∧ (∀ n : Nat, deleteAdjust (newImageOrder none n) 0
        = (List.range n).map (fun (i : Nat) => (i : Int))) := by
  constructor
  · intro o n hne hnn
    have hlen : o.length > 0 := List.length_pos.mpr hne
    unfold newImageOrder
    simp only [hlen, if_pos]
    unfold deleteAdjust
    have h0 : (0 : Int) ∉ o.map (fun idx => idx + 1) := by
      simp only [List.mem_map, not_exists]
      intro v
      rintro ⟨hv, he⟩
      have := hnn v hv
      omega
    rw [List.erase_append_right [0] h0, List.erase_cons_head, List.append_nil,
      List.map_map]
    have hid : ∀ v ∈ o,
        ((fun idx => if idx > 0 then idx - 1 else idx) ∘ fun idx => idx + 1) v = v := by
      intro v hv
      have := hnn v hv
      simp only [Function.comp_apply]
      rw [if_pos (by omega)]
      omega
    rw [List.map_congr_left hid]
    simp
  · intro n
    unfold newImageOrder synthesizedOrder deleteAdjust
    have h0 : (0 : Int) ∉ (List.range n).map (fun (i : Nat) => (i : Int) + 1) := by
      simp only [List.mem_map, not_exists]
      intro v
      rintro ⟨hv, he⟩
      omega
    rw [List.erase_append_right [0] h0, List.erase_cons_head, List.append_nil,
      List.map_map]
    refine List.map_congr_left ?_
    intro v hv
    simp only [Function.comp_apply]
    rw [if_pos (by omega)]
    omega

/-- Concrete run of the C4 amended theorem: round trip on [2, 0, 1]. -/
theorem append_delete_roundtrip_witness :
    deleteAdjust (newImageOrder (some [2, 0, 1]) 5) 0 = [2, 0, 1] :=
  append_delete_roundtrip.1 [2, 0, 1] 5 (by decide) (by decide)

/-- The synthesized order is a valid permutation view of the grown storage. -/
theorem synthesizedOrder_inv (n : Nat) : OrderInv (n + 1) (synthesizedOrder n) := by
  constructor
  · refine List.Nodup.append ?_ (List.nodup_singleton 0) ?_
    · exact (List.nodup_range n).map (fun a b hab => by omega)
    · intro x hx hx0
      simp only [List.mem_singleton] at hx0
      subst hx0
      simp only [List.mem_map] at hx
      obtain ⟨i, _, hi⟩ := hx
      omega
  · intro v hv
    rcases List.mem_append.mp hv with hv | hv
    · simp only [List.mem_map] at hv
      obtain ⟨i, hi, rfl⟩ := hv
      have := List.mem_range.mp hi
      omega
    · simp only [List.mem_singleton] at hv
      omega

/-- The append adjustment preserves the permutation validity invariant. -/
theorem newImageOrder_inv (n : Nat) (o : List Int) (h : OrderInv n o) :
    OrderInv (n + 1) (newImageOrder (some o) n) := by
  obtain ⟨hnd, hrange⟩ := h
  unfold newImageOrder
  by_cases hlen : o.length > 0
  · simp only [hlen, if_pos]
    constructor
    · refine List.Nodup.append ?_ (List.nodup_singleton 0) ?_
      · exact hnd.map (fun a b hab => by omega)
      · intro x hx hx0
        simp only [List.mem_singleton] at hx0
        subst hx0
        simp only [List.mem_map] at hx
        obtain ⟨v, hv, he⟩ := hx
        have := (hrange v hv).1
        omega
    · intro v hv
      rcases List.mem_append.mp hv with hv | hv
      · simp only [List.mem_map] at hv
        obtain ⟨w, hw, rfl⟩ := hv
        have := hrange w hw
        omega
      · simp only [List.mem_singleton] at hv
        omega
  · simp only [hlen, if_neg]
    exact synthesizedOrder_inv n

/-- The delete adjustment preserves the permutation validity invariant when
the deleted position exists in storage. -/
theorem deleteAdjust_inv (n : Nat) (o : List Int) (p : Int) (h : OrderInv n o)
    (hp0 : 0 ≤ p) (hpn : p < (n : Int)) : OrderInv (n - 1) (deleteAdjust o p) := by
  obtain ⟨hnd, hrange⟩ := h
  have hne : ∀ v ∈ o.erase p, v ≠ p := fun v hv => (hnd.mem_erase_iff.mp hv).1
  constructor
  · refine (hnd.erase p).map_on ?_
    intro x hx y hy hxy
    have hxp := hne x hx
    have hyp := hne y hy
    by_cases hxgt : x > p <;> by_cases hygt : y > p <;>
      simp only [hxgt, hygt, if_pos, if_neg, if_true, if_false] at hxy <;> omega
  · intro v hv
    simp only [deleteAdjust, List.mem_map] at hv
    obtain ⟨w, hw, rfl⟩ := hv
    have hwp := hne w hw
    have hwo := hrange w (List.mem_of_mem_erase hw)
    by_cases hgt : w > p <;> simp only [hgt, if_pos, if_neg, if_true, if_false] <;> omega

/-- C5: starting from a duplicate-free order with values inside storage
bounds, any valid sequence of upload and delete mutations keeps the order
duplicate-free with every value inside the current storage bounds. -/
theorem order_permutation_invariant :
    ∀ (ops : List GalleryOp) (s : CollectionState),
      OrderInv s.storageLen s.order → ValidOps s.storageLen ops →
      OrderInv (applyOps s ops).storageLen (applyOps s ops).order := by
  intro ops
  induction ops with
  | nil => intro s h _; exact h
  | cons op rest ih =>
    intro s h hv
    cases op with
    | upload =>
      have h2 : OrderInv (applyOp s GalleryOp.upload).storageLen
          (applyOp s GalleryOp.upload).order := newImageOrder_inv s.storageLen s.order h
      have hv2 : ValidOps (applyOp s GalleryOp.upload).storageLen rest := hv
      exact ih (applyOp s GalleryOp.upload) h2 hv2
    | deleteAt p =>
      obtain ⟨⟨hp0, hpn⟩, hrest⟩ := hv
      have h2 : OrderInv (applyOp s (GalleryOp.deleteAt p)).storageLen
          (applyOp s (GalleryOp.deleteAt p)).order := by
        show OrderInv (s.storageLen - 1)
          (if s.order.length > 0 then deleteAdjust s.order p else s.order)
        by_cases hlen : s.order.length > 0
        · simp only [hlen, if_pos]
          exact deleteAdjust_inv s.storageLen s.order p h hp0 hpn
        · simp only [hlen, if_neg]
          have ho : s.order = [] := List.length_eq_zero.mp (by omega)
          rw [ho]
          exact ⟨List.nodup_nil, by simp⟩
      exact ih (applyOp s (GalleryOp.deleteAt p)) h2 hrest

/-- Concrete run of the C5 theorem: state with 2 stored items and order
[1, 0], then an upload followed by deleting storage position 0. -/
theorem order_permutation_invariant_witness :
    OrderInv (applyOps (CollectionState.mk 2 [1, 0])
        [GalleryOp.upload, GalleryOp.deleteAt 0]).storageLen
      (applyOps (CollectionState.mk 2 [1, 0])
        [GalleryOp.upload, GalleryOp.deleteAt 0]).order :=
  order_permutation_invariant [GalleryOp.upload, GalleryOp.deleteAt 0]
    (CollectionState.mk 2 [1, 0])
    ⟨by decide, by decide⟩
    ⟨⟨by decide, by decide⟩, trivial⟩

/-- An id that does not start with "underwater-" always resolves to itself
alone. -/
theorem findMatchingExhibitionIds_of_not_underwater (g : GalleryData) (id : String)
    (h : strStartsWith id "underwater-" = false) :
    findMatchingExhibitionIds g id = [id] := by
  unfold findMatchingExhibitionIds
  cases hg : isGallerySection g id with
  | true => simp [hg]
  | false => simp [hg, h]

/-- Writing one constant order to every id of a list sets every member key to
that order. -/
theorem foldl_setOrder_const_mem (ids : List String) (m : OrdersMap) (v : List Int)
    (k : String) (hk : k ∈ ids) :
    ids.foldl (fun acc id => setOrder acc id v) m k = some v := by
  induction ids generalizing m with
  | nil => simp at hk
  | cons a rest ih =>
    simp only [List.foldl_cons]
    rcases List.mem_cons.mp hk with rfl | hk2
    · by_cases hrest : k ∈ rest
      · exact ih (setOrder m k v) hrest
      · rw [foldl_lookup_not_mem _ (fun acc id k2 hne => by simp [setOrder, hne])
          rest (setOrder m k v) k hrest]
        simp [setOrder]
    · exact ih (setOrder m a v) hk2

/-- C6: a reorder submission for a non-reserved id is rejected whenever some
element falls outside [0, maxValidIndex] (the storage length minus 1), leaving
the whole persisted state exactly as it was; a fully in-range submission
replaces the order of every id in the resolved alias set; the two reserved
meta ids skip validation and are persisted verbatim. -/
theorem reorder_validation (g : GalleryData) (m : OrdersMap) (exhibitionId : String)
    (order : List Int) :
    (exhibitionId ≠ "gallery-sections" → exhibitionId ≠ "exhibitions" →
      (((∃ v ∈ order, v < 0 ∨ v > maxValidIndex g exhibitionId) →
          (galleryOrderPost g m exhibitionId order).1 = m)
        ∧ ((∀ v ∈ order, 0 ≤ v ∧ v ≤ maxValidIndex g exhibitionId) →
            ∀ k ∈ findMatchingExhibitionIds g exhibitionId,
              (galleryOrderPost g m exhibitionId order).1 k = some order)))
    ∧ (galleryOrderPost g m "gallery-sections" order).1 "gallery-sections" = some order
    ∧ (galleryOrderPost g m "exhibitions" order).1 "exhibitions" = some order
    ∧ maxValidIndex g exhibitionId
        = (getImageCount g exhibitionId (isGallerySection g exhibitionId) : Int) - 1 := by
  refine ⟨?_, by simp [galleryOrderPost, setOrder], by simp [galleryOrderPost, setOrder], ?_⟩
  · intro h1 h2
    constructor
    · rintro ⟨v, hv, hcond⟩
      have hmem : v ∈ order.filter
          (fun idx => decide (idx < 0 ∨ idx > maxValidIndex g exhibitionId)) :=
        List.mem_filter.mpr ⟨hv, decide_eq_true hcond⟩
      have hlen : 0 < (order.filter
          (fun idx => decide (idx < 0 ∨ idx > maxValidIndex g exhibitionId))).length :=
        List.length_pos.mpr (List.ne_nil_of_mem hmem)
      simp only [galleryOrderPost, if_neg h1, if_neg h2, hlen, if_pos]
    · intro hall k hk
      have hnil : order.filter
          (fun idx => decide (idx < 0 ∨ idx > maxValidIndex g exhibitionId)) = [] := by
        rw [List.filter_eq_nil_iff]
        intro a ha
        have := hall a ha
        simp only [decide_eq_true_eq]
        push_neg
        exact ⟨this.1, this.2⟩
      simp only [galleryOrderPost, if_neg h1, if_neg h2, hnil, List.length_nil,
        lt_irrefl, if_neg, gt_iff_lt, not_lt, le_refl, if_false]
      exact foldl_setOrder_const_mem _ m order k hk
  · unfold maxValidIndex getImageCount
    cases hg : isGallerySection g exhibitionId with
    | true =>
      simp only [hg, if_pos, if_true]
      cases hf : g.gallerySections.find? (fun sec => sec.id == exhibitionId) with
      | none => simp
      | some sec => cases hi : sec.images <;> simp [hi]
    | false =>
      simp only [hg, if_neg, if_false, Bool.false_eq_true]
      cases hf : g.exhibitions.find? (fun e => e.id == exhibitionId) with
      | none => simp
      | some e => cases hi : e.images <;> simp [hi]

/-- Concrete run of the C6 theorem: an exhibition with one image rejects the
stale submitted order [7] and keeps the whole persisted state unchanged. -/
theorem reorder_validation_witness :
    (galleryOrderPost
        (GalleryData.mk [] [Collection.mk "marine" (some [ImageRec.mk "i" "t" "c"])])
        (fun k => if k = "marine" then some [0] else none)
        "marine" [7]).1
      = (fun k => if k = "marine" then some [0] else none) :=
  ((reorder_validation
      (GalleryData.mk [] [Collection.mk "marine" (some [ImageRec.mk "i" "t" "c"])])
      (fun k => if k = "marine" then some [0] else none)
      "marine" [7]).1 (by decide) (by decide)).1
    ⟨7, by decide, by decide⟩

/-- C7 counterexample: in the resolved alias set of underwater-carboneria, one
member has persisted order [1, 0] and the other has none; the upload append
adjustment applied via underwater-carboneria leaves the two members with
different orders ([2, 1, 0] versus the synthesized [1, 2, 0]). -/
theorem alias_consistency_cex :
    "underwater-babel" ∈ findMatchingExhibitionIds underwaterData "underwater-carboneria"
    ∧ updateStateWithNewImage underwaterData aliasCexOrders "underwater-carboneria" 2
        "underwater-carboneria" = some [2, 1, 0]
    ∧ updateStateWithNewImage underwaterData aliasCexOrders "underwater-carboneria" 2
        "underwater-babel" = some [1, 2, 0]
    ∧ (some [2, 1, 0] : Option (List Int)) ≠ some [1, 2, 0] :=
  ⟨by decide, rfl, rfl, by decide⟩

/-- C7 amended: after a single mutation applied via one member of an alias
set, any two members of the set carry identical persisted orders provided
their entries were identical before the mutation (an accepted explicit reorder
needs no such proviso: it writes one constant order to the whole set); when
the entries disagreed beforehand, the append and delete adjustments can leave
them different. -/
theorem alias_mutation_preserves_agreement (g : GalleryData) (m : OrdersMap)
    (exhibitionId : String) (count : Nat) (p : Int) (order : List Int) (a b : String)
    (hnd : (findMatchingExhibitionIds g exhibitionId).Nodup)
    (ha : a ∈ findMatchingExhibitionIds g exhibitionId)
    (hb : b ∈ findMatchingExhibitionIds g exhibitionId) :
    (m a = m b →
      updateStateWithNewImage g m exhibitionId count a
        = updateStateWithNewImage g m exhibitionId count b
      ∧ updateStateAfterDelete g m exhibitionId p a
        = updateStateAfterDelete g m exhibitionId p b)
    ∧ ((∀ v ∈ order, 0 ≤ v ∧ v ≤ maxValidIndex g exhibitionId) →
        (galleryOrderPost g m exhibitionId order).1 a
          = (galleryOrderPost g m exhibitionId order).1 b) := by
  refine ⟨?_, ?_⟩
  · intro hab
    constructor
    · rw [updateStateWithNewImage_lookup_mem g m exhibitionId count a hnd ha,
        updateStateWithNewImage_lookup_mem g m exhibitionId count b hnd hb, hab]
    · rw [updateStateAfterDelete_lookup_mem g m exhibitionId p a hnd ha,
        updateStateAfterDelete_lookup_mem g m exhibitionId p b hnd hb, hab]
  · intro hall
    by_cases h1 : exhibitionId = "gallery-sections"
    · subst h1
      rw [findMatchingExhibitionIds_of_not_underwater _ _ (by decide)] at ha hb
      simp only [List.mem_singleton] at ha hb
      rw [ha, hb]
    · by_cases h2 : exhibitionId = "exhibitions"
      · subst h2
        rw [findMatchingExhibitionIds_of_not_underwater _ _ (by decide)] at ha hb
        simp only [List.mem_singleton] at ha hb
        rw [ha, hb]
      · have hnil : order.filter
            (fun idx => decide (idx < 0 ∨ idx > maxValidIndex g exhibitionId)) = [] := by
          rw [List.filter_eq_nil_iff]
          intro x hx
          have := hall x hx
          simp only [decide_eq_true_eq]
          push_neg
          exact ⟨this.1, this.2⟩
        simp only [galleryOrderPost, if_neg h1, if_neg h2, hnil, List.length_nil,
          lt_irrefl, if_neg, gt_iff_lt, not_lt, le_refl, if_false]
        rw [foldl_setOrder_const_mem _ m order a ha, foldl_setOrder_const_mem _ m order b hb]

/-- Concrete run of the C7 amended theorem: both underwater exhibitions start
with no entry and agree after an upload, after a delete, and after an accepted
reorder. -/
theorem alias_mutation_preserves_agreement_witness :
    updateStateWithNewImage underwaterData (fun _ => none) "underwater-carboneria" 2
        "underwater-carboneria"
      = updateStateWithNewImage underwaterData (fun _ => none) "underwater-carboneria" 2
        "underwater-babel"
    ∧ updateStateAfterDelete underwaterData (fun _ => none) "underwater-carboneria" 0
        "underwater-carboneria"
      = updateStateAfterDelete underwaterData (fun _ => none) "underwater-carboneria" 0
        "underwater-babel"
    ∧ (galleryOrderPost underwaterData (fun _ => none) "underwater-carboneria" [1, 0]).1
        "underwater-carboneria"
      = (galleryOrderPost underwaterData (fun _ => none) "underwater-carboneria" [1, 0]).1
        "underwater-babel" :=
  ⟨((alias_mutation_preserves_agreement underwaterData (fun _ => none)
      "underwater-carboneria" 2 0 [1, 0] "underwater-carboneria" "underwater-babel"
      (by decide) (by decide) (by decide)).1 rfl).1,
   ((alias_mutation_preserves_agreement underwaterData (fun _ => none)
      "underwater-carboneria" 2 0 [1, 0] "underwater-carboneria" "underwater-babel"
      (by decide) (by decide) (by decide)).1 rfl).2,
   (alias_mutation_preserves_agreement underwaterData (fun _ => none)
      "underwater-carboneria" 2 0 [1, 0] "underwater-carboneria" "underwater-babel"
      (by decide) (by decide) (by decide)).2 (by decide)⟩

/-- C8: creating a gallery section prepends it to gallerySections but leaves
the persisted gallery-sections meta order untouched, although the append
adjustment used by the other mutation triggers would have produced [2, 1, 0];
the stale order [1, 0] now denotes the wrong sections and omits the new one. -/
theorem create_section_skips_meta_adjust :
    ((createGallerySection twoSectionData twoSectionOrders
        (Collection.mk "sec-new" (some []))).1).gallerySections.map Collection.id
      = ["sec-new", "sec-a", "sec-b"]
    ∧ (createGallerySection twoSectionData twoSectionOrders
        (Collection.mk "sec-new" (some []))).2 "gallery-sections" = some [1, 0]
    ∧ newImageOrder (some [1, 0]) 2 = [2, 1, 0]
    ∧ (some [1, 0] : Option (List Int)) ≠ some [2, 1, 0] :=
  ⟨rfl, rfl, by decide, by decide⟩

/-- C9 counterexample: the stale submission [7, 0] is rejected (the persisted
order stays [0, 1]) while the valid submission [1, 0] is accepted (persisted
order becomes [1, 0]), yet both calls return the identical success response:
the caller cannot distinguish rejection from acceptance by the response. -/
theorem stale_reorder_response_cex :
    (galleryOrderPost staleReorderData staleReorderOrders "marine-life" [7, 0]).2
      = (galleryOrderPost staleReorderData staleReorderOrders "marine-life" [1, 0]).2
    ∧ (galleryOrderPost staleReorderData staleReorderOrders "marine-life" [7, 0]).1
        "marine-life" = some [0, 1]
    ∧ (galleryOrderPost staleReorderData staleReorderOrders "marine-life" [1, 0]).1
        "marine-life" = some [1, 0]
    ∧ (some [0, 1] : Option (List Int)) ≠ some [7, 0] :=
  ⟨rfl, rfl, rfl, by decide⟩

/-- C9 amended: the reorder endpoint returns the constant success body on
every non-error path, rejected submissions included; rejection is observable
only through the unchanged persisted order, never through the response. -/
theorem galleryOrder_response_constant (g : GalleryData) (m : OrdersMap)
    (exhibitionId : String) (order : List Int) :
    (galleryOrderPost g m exhibitionId order).2
      = OrderSaveResponse.mk true "Order saved successfully" := rfl

/-- C10: every order mutation leaves the entry of every collection id outside
the resolved alias set of the target exactly as it was: the append adjustment,
the delete adjustment, and the reorder endpoint (accepted, rejected, or
reserved-id) all carry unrelated entries through unchanged. -/
theorem order_mutation_frame (g : GalleryData) (m : OrdersMap) (exhibitionId : String)
    (count : Nat) (p : Int) (order : List Int) (k : String)
    (hk : k ∉ findMatchingExhibitionIds g exhibitionId) :
    updateStateWithNewImage g m exhibitionId count k = m k
    ∧ updateStateAfterDelete g m exhibitionId p k = m k
    ∧ (galleryOrderPost g m exhibitionId order).1 k = m k := by
  refine ⟨updateStateWithNewImage_lookup_not_mem g m exhibitionId count k hk,
    updateStateAfterDelete_lookup_not_mem g m exhibitionId p k hk, ?_⟩
  by_cases h1 : exhibitionId = "gallery-sections"
  · subst h1
    rw [findMatchingExhibitionIds_of_not_underwater _ _ (by decide)] at hk
    simp only [List.mem_singleton] at hk
    simp [galleryOrderPost, setOrder, hk]
  · by_cases h2 : exhibitionId = "exhibitions"
    · subst h2
      rw [findMatchingExhibitionIds_of_not_underwater _ _ (by decide)] at hk
      simp only [List.mem_singleton] at hk
      simp [galleryOrderPost, setOrder, hk]
    · simp only [galleryOrderPost, if_neg h1, if_neg h2]
      by_cases hinv : 0 < (order.filter
          (fun idx => decide (idx < 0 ∨ idx > maxValidIndex g exhibitionId))).length
      · simp only [hinv, if_pos, gt_iff_lt, if_true]
      · simp only [hinv, if_neg, gt_iff_lt, if_false]
        exact foldl_lookup_not_mem _
          (fun acc id k2 hne => by simp [setOrder, hne]) _ m k hk

/-- Concrete run of the C10 theorem: a mutation of marine-life leaves the
entry of the unrelated id prensa untouched across all three operations. -/
theorem order_mutation_frame_witness :
    updateStateWithNewImage staleReorderData staleReorderOrders "marine-life" 2 "prensa"
      = staleReorderOrders "prensa"
    ∧ updateStateAfterDelete staleReorderData staleReorderOrders "marine-life" 0 "prensa"
      = staleReorderOrders "prensa"
    ∧ (galleryOrderPost staleReorderData staleReorderOrders "marine-life" [1, 0]).1 "prensa"
      = staleReorderOrders "prensa" :=
  order_mutation_frame staleReorderData staleReorderOrders "marine-life" 2 0 [1, 0]
    "prensa" (by decide)

end ArtisticPortal
